import Mathlib

/-! Verification of the PDF-checkmaker invoice tool (src/main.py).
Python values are embedded as `PyVal`; Python floats are modelled as exact
unnormalized rationals (`PFloat`), which is faithful for the decimal literals
the program handles and keeps every definition kernel-computable. -/

/-- An exact rational standing in for a Python float: num / den with den
intended positive.  Kept unnormalized so that all operations are plain integer
arithmetic. -/
structure PFloat where
  num : Int
  den : ℕ
deriving DecidableEq

/-- Embed an integer. -/
def PFloat.ofInt (n : Int) : PFloat := ⟨n, 1⟩

/-- Exact addition on the rational model of floats. -/
def PFloat.add (a b : PFloat) : PFloat :=
  ⟨a.num * b.den + b.num * a.den, a.den * b.den⟩

/-- Exact negation. -/
def PFloat.neg (a : PFloat) : PFloat := ⟨-a.num, a.den⟩

/-- Multiply by a signed power of ten (for float exponents). -/
def PFloat.mulPow10 (a : PFloat) : Int → PFloat
  | .ofNat k => ⟨a.num * (10 : Int) ^ k, a.den⟩
  | .negSucc k => ⟨a.num, a.den * 10 ^ (k + 1)⟩

/-- Embedding of the untyped Python values that flow through the program. -/
inductive PyVal where
  | pnone
  | pstr (s : String)
  | pint (n : Int)
  | pfloat (f : PFloat)
  | plist (xs : List PyVal)
  | pdict (kvs : List (String × PyVal))

mutual

/-- Decidable equality for the nested `PyVal` type. -/
def PyVal.decEq : (a b : PyVal) → Decidable (a = b)
  | .pnone, .pnone => .isTrue rfl
  | .pstr a, .pstr b =>
    if h : a = b then .isTrue (by rw [h]) else .isFalse (fun hh => h (PyVal.pstr.inj hh))
  | .pint a, .pint b =>
    if h : a = b then .isTrue (by rw [h]) else .isFalse (fun hh => h (PyVal.pint.inj hh))
  | .pfloat a, .pfloat b =>
    if h : a = b then .isTrue (by rw [h]) else .isFalse (fun hh => h (PyVal.pfloat.inj hh))
  | .plist xs, .plist ys =>
    match PyVal.decEqList xs ys with
    | .isTrue h => .isTrue (by rw [h])
    | .isFalse h => .isFalse (fun hh => h (PyVal.plist.inj hh))
  | .pdict xs, .pdict ys =>
    match PyVal.decEqDict xs ys with
    | .isTrue h => .isTrue (by rw [h])
    | .isFalse h => .isFalse (fun hh => h (PyVal.pdict.inj hh))
  | .pnone, .pstr _ | .pnone, .pint _ | .pnone, .pfloat _ | .pnone, .plist _
  | .pnone, .pdict _ | .pstr _, .pnone | .pstr _, .pint _ | .pstr _, .pfloat _
  | .pstr _, .plist _ | .pstr _, .pdict _ | .pint _, .pnone | .pint _, .pstr _
  | .pint _, .pfloat _ | .pint _, .plist _ | .pint _, .pdict _ | .pfloat _, .pnone
  | .pfloat _, .pstr _ | .pfloat _, .pint _ | .pfloat _, .plist _ | .pfloat _, .pdict _
  | .plist _, .pnone | .plist _, .pstr _ | .plist _, .pint _ | .plist _, .pfloat _
  | .plist _, .pdict _ | .pdict _, .pnone | .pdict _, .pstr _ | .pdict _, .pint _
  | .pdict _, .pfloat _ | .pdict _, .plist _ => .isFalse (by simp)

/-- Decidable equality for lists of `PyVal`. -/
def PyVal.decEqList : (xs ys : List PyVal) → Decidable (xs = ys)
  | [], [] => .isTrue rfl
  | [], _ :: _ => .isFalse (by simp)
  | _ :: _, [] => .isFalse (by simp)
  | x :: xs, y :: ys =>
    match PyVal.decEq x y with
    | .isFalse h => .isFalse (fun hh => h (List.cons.inj hh).1)
    | .isTrue h1 =>
      match PyVal.decEqList xs ys with
      | .isTrue h2 => .isTrue (by rw [h1, h2])
      | .isFalse h2 => .isFalse (fun hh => h2 (List.cons.inj hh).2)

/-- Decidable equality for string-keyed association lists of `PyVal`. -/
def PyVal.decEqDict : (xs ys : List (String × PyVal)) → Decidable (xs = ys)
  | [], [] => .isTrue rfl
  | [], _ :: _ => .isFalse (by simp)
  | _ :: _, [] => .isFalse (by simp)
  | (k, v) :: xs, (k2, v2) :: ys =>
    if hk : k = k2 then
      match PyVal.decEq v v2 with
      | .isFalse h => .isFalse (fun hh => h (congrArg Prod.snd (List.cons.inj hh).1))
      | .isTrue h1 =>
        match PyVal.decEqDict xs ys with
        | .isTrue h2 => .isTrue (by rw [hk, h1, h2])
        | .isFalse h2 => .isFalse (fun hh => h2 (List.cons.inj hh).2)
    else .isFalse (fun hh => hk (congrArg Prod.fst (List.cons.inj hh).1))

end

instance : DecidableEq PyVal := PyVal.decEq

/-- One invoice record as built by load_data. -/
structure InvoiceRecord where
  invoice_id : PyVal
  customer_name : PyVal
  date : PyVal
  items : List PyVal
deriving DecidableEq

/-- A parsed CSV row, as produced by csv.DictReader: every value is a string.
Keys of a reader row are unique, which the association-list model reflects by
always taking the first binding. -/
abbrev CsvRow : Type := List (String × String)

/-- A parsed JSON record object (a Python dict with string keys). -/
abbrev JsonObj : Type := List (String × PyVal)

/-- Python dict.get(k) with an explicit default. -/
def dGet (kvs : List (String × α)) (k : String) (dflt : α) : α :=
  (kvs.lookup k).getD dflt

/-- Wrap an optional CSV field the way load_data stores it: the string when the
column is present, Python None when absent. -/
def strOrNone (o : Option String) : PyVal :=
  (o.map PyVal.pstr).getD PyVal.pnone

/-- The line-item dict built from one CSV row (src/main.py lines 71-76):
quantity defaults to the int 1, price and amount to the int 0. -/
def csvItem (row : CsvRow) : PyVal :=
  .pdict [("item_name", strOrNone (row.lookup "item_name")),
          ("quantity", ((row.lookup "quantity").map PyVal.pstr).getD (.pint 1)),
          ("price", ((row.lookup "price").map PyVal.pstr).getD (.pint 0)),
          ("amount", ((row.lookup "amount").map PyVal.pstr).getD (.pint 0))]

/-- The line-item dict built from one flat JSON record (src/main.py lines 94-99). -/
def flatItem (rec : JsonObj) : PyVal :=
  .pdict [("item_name", (rec.lookup "item_name").getD .pnone),
          ("quantity", (rec.lookup "quantity").getD (.pint 1)),
          ("price", (rec.lookup "price").getD (.pint 0)),
          ("amount", (rec.lookup "amount").getD (.pint 0))]

/-- The items contributed by one JSON record: a list-valued nested items field
is taken verbatim, otherwise the record's own item-shaped fields form a single
line item (src/main.py lines 91-99). -/
def jsonContrib (rec : JsonObj) : List PyVal :=
  match rec.lookup "items" with
  | some (.plist xs) => xs
  | _ => [flatItem rec]

/-- Create the accumulator entry for a new invoice id, mirroring the
`if invoice_id not in invoices` branch.  The insertion-ordered list of records
models the insertion-ordered Python dict `invoices`. -/
def ensureRecord (acc : List InvoiceRecord) (id cn dt : PyVal) : List InvoiceRecord :=
  if acc.any (fun r => r.invoice_id == id) then acc
  else acc ++ [{ invoice_id := id, customer_name := cn, date := dt, items := [] }]

/-- Append items to the record keyed by `id` (the dict entry update). -/
def appendItems (acc : List InvoiceRecord) (id : PyVal) (xs : List PyVal) :
    List InvoiceRecord :=
  acc.map (fun r => if r.invoice_id == id then { r with items := r.items ++ xs } else r)

/-- The CSV loop of load_data (src/main.py lines 60-77) over already-parsed
rows.  A row without the invoice_id key raises KeyError, which the function's
try/except turns into None, discarding all accumulated records. -/
def loadCsvRows (acc : List InvoiceRecord) : List CsvRow → Option (List InvoiceRecord)
  | [] => some acc
  | row :: rest =>
    match row.lookup "invoice_id" with
    | Option.none => Option.none
    | some id =>
      loadCsvRows
        (appendItems
          (ensureRecord acc (.pstr id) (strOrNone (row.lookup "customer_name"))
            (strOrNone (row.lookup "date")))
          (.pstr id) [csvItem row])
        rest

/-- The JSON loop of load_data (src/main.py lines 79-100) over already-parsed
record objects. -/
def loadJsonObjs (acc : List InvoiceRecord) : List JsonObj → Option (List InvoiceRecord)
  | [] => some acc
  | rec :: rest =>
    match rec.lookup "invoice_id" with
    | Option.none => Option.none
    | some id =>
      loadJsonObjs
        (appendItems
          (ensureRecord acc id ((rec.lookup "customer_name").getD .pnone)
            ((rec.lookup "date").getD .pnone))
          id (jsonContrib rec))
        rest

/-- load_data in CSV mode.  The outer Option models the file read / csv parse:
a read or syntax failure reaches the except clause before any row is processed,
so the whole call yields None. -/
def loadDataCsv (parsed : Option (List CsvRow)) : Option (List InvoiceRecord) :=
  parsed.bind (loadCsvRows [])

/-- load_data in JSON mode, with the same failure convention. -/
def loadDataJson (parsed : Option (List JsonObj)) : Option (List InvoiceRecord) :=
  parsed.bind (loadJsonObjs [])

/-- The records of an accumulator or result keyed by a given invoice id. -/
def recsWithId (out : List InvoiceRecord) (id : PyVal) : List InvoiceRecord :=
  out.filter (fun r => r.invoice_id == id)

/-- Whether some CSV row carries the given invoice id. -/
def csvOccurs (id : String) (rows : List CsvRow) : Bool :=
  rows.any (fun row => row.lookup "invoice_id" == some id)

/-- Specification-side item list for one invoice id: the items of the matching
rows, one per row, in row order. -/
def csvItemsFor (id : String) (rows : List CsvRow) : List PyVal :=
  (rows.filter (fun row => row.lookup "invoice_id" == some id)).map csvItem

/-- Whether some JSON record carries the given invoice id. -/
def jsonOccurs (id : PyVal) (objs : List JsonObj) : Bool :=
  objs.any (fun rec => rec.lookup "invoice_id" == some id)

/-- Specification-side item list for one invoice id in JSON mode: the
concatenated contributions of the matching records, in record order. -/
def jsonItemsFor (id : PyVal) (objs : List JsonObj) : List PyVal :=
  (objs.filter (fun rec => rec.lookup "invoice_id" == some id)).flatMap jsonContrib

/-- How one load step transforms the posted items of the records keyed by one
id: a first contribution creates the single record, later ones extend it. -/
def mergeSpec (prev : List (List PyVal)) (occurs : Bool) (new : List PyVal) :
    List (List PyVal) :=
  match prev with
  | [] => if occurs then [new] else []
  | _ :: _ => prev.map (· ++ new)

theorem mergeSpec_nil_new (prev : List (List PyVal)) : mergeSpec prev false [] = prev := by
  cases prev with
  | nil => rfl
  | cons a l => simp [mergeSpec]

theorem recsWithId_appendItems_self (acc : List InvoiceRecord) (id : PyVal)
    (xs : List PyVal) :
    recsWithId (appendItems acc id xs) id
      = (recsWithId acc id).map (fun r => { r with items := r.items ++ xs }) := by
  induction acc with
  | nil => rfl
  | cons r rest ih =>
    by_cases h : r.invoice_id = id
    · simp [recsWithId, appendItems, List.filter_cons, beq_iff_eq, h] at ih ⊢
      exact ih
    · simp [recsWithId, appendItems, List.filter_cons, beq_iff_eq, h] at ih ⊢
      exact ih

theorem recsWithId_appendItems_ne (acc : List InvoiceRecord) (id2 id : PyVal)
    (hne : id2 ≠ id) (xs : List PyVal) :
    recsWithId (appendItems acc id2 xs) id = recsWithId acc id := by
  have hne2 : id ≠ id2 := Ne.symm hne
  induction acc with
  | nil => rfl
  | cons r rest ih =>
    by_cases h : r.invoice_id = id2
    · have h2 : ¬ r.invoice_id = id := by rw [h]; exact hne
      simp [recsWithId, appendItems, List.filter_cons, beq_iff_eq, h, h2, hne, hne2] at ih ⊢
      exact ih
    · by_cases h3 : r.invoice_id = id
      · simp [recsWithId, appendItems, List.filter_cons, beq_iff_eq, h, h3, hne, hne2] at ih ⊢
        exact ih
      · simp [recsWithId, appendItems, List.filter_cons, beq_iff_eq, h, h3, hne, hne2] at ih ⊢
        exact ih

theorem recsWithId_ensureRecord_self (acc : List InvoiceRecord) (id cn dt : PyVal) :
    recsWithId (ensureRecord acc id cn dt) id
      = if recsWithId acc id = []
        then [{ invoice_id := id, customer_name := cn, date := dt, items := [] }]
        else recsWithId acc id := by
  unfold ensureRecord
  by_cases h : acc.any (fun r => r.invoice_id == id) = true
  · have hne : recsWithId acc id ≠ [] := by
      rcases List.any_eq_true.mp h with ⟨r, hr, hid⟩
      intro hnil
      have hmem : r ∈ recsWithId acc id := List.mem_filter.mpr ⟨hr, hid⟩
      rw [hnil] at hmem
      exact absurd hmem (List.not_mem_nil r)
    rw [if_pos h, if_neg hne]
  · have hnil : recsWithId acc id = [] := by
      unfold recsWithId
      rw [List.filter_eq_nil_iff]
      intro r hr hid
      exact h (List.any_eq_true.mpr ⟨r, hr, hid⟩)
    rw [if_neg h, if_pos hnil]
    unfold recsWithId at hnil ⊢
    rw [List.filter_append, hnil]
    simp [List.filter_cons, beq_iff_eq]

theorem recsWithId_ensureRecord_ne (acc : List InvoiceRecord) (id2 id cn dt : PyVal)
    (hne : id2 ≠ id) :
    recsWithId (ensureRecord acc id2 cn dt) id = recsWithId acc id := by
  unfold ensureRecord
  by_cases h : acc.any (fun r => r.invoice_id == id2) = true
  · rw [if_pos h]
  · rw [if_neg h]
    unfold recsWithId
    rw [List.filter_append]
    simp [List.filter_cons, beq_iff_eq, hne]

/-- Grouping invariant of the CSV loop: however the loop finishes, the items of
the records keyed by a given id are obtained from the accumulator's by merging
in the matching rows of the remaining input, in row order. -/
theorem loadCsvRows_filter (rows : List CsvRow) :
    ∀ (acc out : List InvoiceRecord) (id : String),
      loadCsvRows acc rows = some out →
      (recsWithId out (.pstr id)).map (·.items)
        = mergeSpec ((recsWithId acc (.pstr id)).map (·.items)) (csvOccurs id rows)
            (csvItemsFor id rows) := by
  induction rows with
  | nil =>
    intro acc out id h
    simp [loadCsvRows] at h
    subst h
    simp [csvOccurs, csvItemsFor, mergeSpec_nil_new]
  | cons row rest ih =>
    intro acc out id h
    cases hl : row.lookup "invoice_id" with
    | none => rw [loadCsvRows, hl] at h; cases h
    | some id2 =>
      rw [loadCsvRows, hl] at h
      have ih2 := ih _ out id h
      by_cases hid : id2 = id
      · subst hid
        rw [recsWithId_appendItems_self, recsWithId_ensureRecord_self] at ih2
        have hocc : csvOccurs id2 (row :: rest) = true := by
          simp [csvOccurs, List.any_cons, hl]
        have hitems : csvItemsFor id2 (row :: rest) = csvItem row :: csvItemsFor id2 rest := by
          simp [csvItemsFor, List.filter_cons, hl]
        rw [hocc, hitems] at *
        by_cases hacc : recsWithId acc (.pstr id2) = []
        · rw [if_pos hacc] at ih2
          simp only [List.map_map, List.map_cons, List.map_nil] at ih2
          rw [ih2, hacc]
          simp [mergeSpec]
        · rw [if_neg hacc] at ih2
          rw [ih2]
          rcases List.exists_cons_of_ne_nil hacc with ⟨r0, rs, hcons⟩
          rw [hcons]
          simp [mergeSpec, List.map_map, Function.comp, List.append_assoc]
      · have hpne : PyVal.pstr id2 ≠ PyVal.pstr id := by
          intro hc
          exact hid (PyVal.pstr.inj hc)
        rw [recsWithId_appendItems_ne _ _ _ hpne, recsWithId_ensureRecord_ne _ _ _ _ _ hpne]
          at ih2
        have hocc : csvOccurs id (row :: rest) = csvOccurs id rest := by
          simp [csvOccurs, List.any_cons, hl, hid]
        have hitems : csvItemsFor id (row :: rest) = csvItemsFor id rest := by
          simp [csvItemsFor, List.filter_cons, hl, hid]
        rw [hocc, hitems]
        exact ih2

/-- Grouping invariant of the JSON loop, with per-record contributions. -/
theorem loadJsonObjs_filter (objs : List JsonObj) :
    ∀ (acc out : List InvoiceRecord) (id : PyVal),
      loadJsonObjs acc objs = some out →
      (recsWithId out id).map (·.items)
        = mergeSpec ((recsWithId acc id).map (·.items)) (jsonOccurs id objs)
            (jsonItemsFor id objs) := by
  induction objs with
  | nil =>
    intro acc out id h
    simp [loadJsonObjs] at h
    subst h
    simp [jsonOccurs, jsonItemsFor, mergeSpec_nil_new]
  | cons rec rest ih =>
    intro acc out id h
    cases hl : rec.lookup "invoice_id" with
    | none => rw [loadJsonObjs, hl] at h; cases h
    | some id2 =>
      rw [loadJsonObjs, hl] at h
      have ih2 := ih _ out id h
      by_cases hid : id2 = id
      · subst hid
        rw [recsWithId_appendItems_self, recsWithId_ensureRecord_self] at ih2
        have hocc : jsonOccurs id2 (rec :: rest) = true := by
          simp [jsonOccurs, List.any_cons, hl]
        have hitems : jsonItemsFor id2 (rec :: rest)
            = jsonContrib rec ++ jsonItemsFor id2 rest := by
          simp [jsonItemsFor, List.filter_cons, hl]
        rw [hocc, hitems] at *
        by_cases hacc : recsWithId acc id2 = []
        · rw [if_pos hacc] at ih2
          simp only [List.map_map, List.map_cons, List.map_nil] at ih2
          rw [ih2, hacc]
          simp [mergeSpec, List.append_assoc]
        · rw [if_neg hacc] at ih2
          rw [ih2]
          rcases List.exists_cons_of_ne_nil hacc with ⟨r0, rs, hcons⟩
          rw [hcons]
          simp [mergeSpec, List.map_map, Function.comp, List.append_assoc]
      · rw [recsWithId_appendItems_ne _ _ _ hid, recsWithId_ensureRecord_ne _ _ _ _ _ hid]
          at ih2
        have hocc : jsonOccurs id (rec :: rest) = jsonOccurs id rest := by
          simp [jsonOccurs, List.any_cons, hl, hid]
        have hitems : jsonItemsFor id (rec :: rest) = jsonItemsFor id rest := by
          simp [jsonItemsFor, List.filter_cons, hl, hid]
        rw [hocc, hitems]
        exact ih2

/-- Whether a JSON record carries a list-valued nested items field. -/
def nestedItems (rec : JsonObj) : Bool :=
  match rec.lookup "items" with
  | some (.plist _) => true
  | _ => false

theorem jsonContrib_of_flat (rec : JsonObj) (h : nestedItems rec = false) :
    jsonContrib rec = [flatItem rec] := by
  unfold jsonContrib
  unfold nestedItems at h
  cases hl : rec.lookup "items" with
  | none => rfl
  | some v =>
    cases v with
    | plist xs => rw [hl] at h; cases h
    | pnone => rfl
    | pstr s => rfl
    | pint n => rfl
    | pfloat q => rfl
    | pdict d => rfl

theorem jsonItemsFor_of_flat (id : PyVal) (objs : List JsonObj)
    (h : ∀ rec ∈ objs, nestedItems rec = false) :
    jsonItemsFor id objs
      = (objs.filter (fun rec => rec.lookup "invoice_id" == some id)).map flatItem := by
  induction objs with
  | nil => rfl
  | cons rec rest ih =>
    have hrec := h rec (List.mem_cons_self rec rest)
    have hrest : ∀ r ∈ rest, nestedItems r = false :=
      fun r hr => h r (List.mem_cons_of_mem rec hr)
    have ihr := ih hrest
    unfold jsonItemsFor at ihr ⊢
    rw [List.filter_cons]
    by_cases hm : (rec.lookup "invoice_id" == some id) = true
    · rw [if_pos hm, List.flatMap_cons, List.map_cons, jsonContrib_of_flat rec hrec, ihr]
      rfl
    · rw [if_neg hm]
      exact ihr

/-- C1 (amended): in CSV mode, and in JSON mode when no object has a
list-valued items field, N rows/objects sharing one invoice id produce exactly
one record for that id whose items are the N per-row line items in source
order (the single filtered record's items equal the matching rows' items, so
duplicates append instead of creating records); in JSON mode with arbitrary
objects there is still at most one record per id. -/
theorem load_data_groups_rows :
    (∀ (rows : List CsvRow) (out : List InvoiceRecord) (id : String),
        loadDataCsv (some rows) = some out →
        (recsWithId out (.pstr id)).map (·.items)
          = if csvOccurs id rows then [csvItemsFor id rows] else [])
    ∧ (∀ (objs : List JsonObj) (out : List InvoiceRecord) (id : PyVal),
        loadDataJson (some objs) = some out →
        (∀ rec ∈ objs, nestedItems rec = false) →
        (recsWithId out id).map (·.items)
          = if jsonOccurs id objs
            then [(objs.filter (fun rec => rec.lookup "invoice_id" == some id)).map flatItem]
            else [])
    ∧ (∀ (objs : List JsonObj) (out : List InvoiceRecord) (id : PyVal),
        loadDataJson (some objs) = some out →
        (recsWithId out id).length ≤ 1)
    ∧ (∀ (id : String) (rows : List CsvRow),
        (csvItemsFor id rows).length
          = (rows.filter (fun row => row.lookup "invoice_id" == some id)).length) := by
  refine ⟨?_, ?_, ?_, ?_⟩
  · intro rows out id h
    simp only [loadDataCsv, Option.bind_some] at h
    have hinv := loadCsvRows_filter rows [] out id h
    rw [hinv]
    cases hocc : csvOccurs id rows with
    | true => simp [recsWithId, mergeSpec]
    | false => simp [recsWithId, mergeSpec]
  · intro objs out id h hflat
    simp only [loadDataJson, Option.bind_some] at h
    have hinv := loadJsonObjs_filter objs [] out id h
    rw [hinv, jsonItemsFor_of_flat id objs hflat]
    cases hocc : jsonOccurs id objs with
    | true => simp [recsWithId, mergeSpec]
    | false => simp [recsWithId, mergeSpec]
  · intro objs out id h
    simp only [loadDataJson, Option.bind_some] at h
    have hinv := loadJsonObjs_filter objs [] out id h
    have hlen : (recsWithId out id).length
        = ((recsWithId out id).map (·.items)).length := by
      rw [List.length_map]
    rw [hlen, hinv]
    cases hocc : jsonOccurs id objs with
    | true => simp [recsWithId, mergeSpec]
    | false => simp [recsWithId, mergeSpec]
  · intro id rows
    unfold csvItemsFor
    rw [List.length_map]

/-- C1 counterexample to the claim as stated: a JSON input with a single
object (N = 1) for invoice id A whose nested items list has two entries
produces a record whose items have length 2, not length N = 1. -/
theorem load_data_groups_rows_counterexample :
    loadDataJson (some [[("invoice_id", PyVal.pstr "A"),
        ("items", PyVal.plist [PyVal.pstr "i1", PyVal.pstr "i2"])]])
      = some [⟨PyVal.pstr "A", PyVal.pnone, PyVal.pnone, [PyVal.pstr "i1", PyVal.pstr "i2"]⟩]
    ∧ ([[("invoice_id", PyVal.pstr "A"),
        ("items", PyVal.plist [PyVal.pstr "i1", PyVal.pstr "i2"])]] : List JsonObj).length = 1
    ∧ (recsWithId [⟨PyVal.pstr "A", PyVal.pnone, PyVal.pnone,
        [PyVal.pstr "i1", PyVal.pstr "i2"]⟩] (PyVal.pstr "A")).map
        (fun r => r.items.length) = [2] := by
  refine ⟨rfl, rfl, rfl⟩

/-- C1 witness: one CSV file with three rows, two of them for invoice A, one
for invoice B: invoice A gets exactly one record with the two A items in row
order. -/
theorem load_data_groups_rows_witness :
    (recsWithId [⟨PyVal.pstr "A", PyVal.pnone, PyVal.pnone,
        [csvItem [("invoice_id", "A"), ("amount", "1")],
         csvItem [("invoice_id", "A"), ("amount", "2")]]⟩,
      ⟨PyVal.pstr "B", PyVal.pnone, PyVal.pnone,
        [csvItem [("invoice_id", "B"), ("amount", "3")]]⟩] (.pstr "A")).map
      (·.items)
      = if csvOccurs "A" [[("invoice_id", "A"), ("amount", "1")],
          [("invoice_id", "B"), ("amount", "3")],
          [("invoice_id", "A"), ("amount", "2")]]
        then [csvItemsFor "A" [[("invoice_id", "A"), ("amount", "1")],
          [("invoice_id", "B"), ("amount", "3")],
          [("invoice_id", "A"), ("amount", "2")]]]
        else [] :=
  load_data_groups_rows.1
    [[("invoice_id", "A"), ("amount", "1")],
     [("invoice_id", "B"), ("amount", "3")],
     [("invoice_id", "A"), ("amount", "2")]] _ "A" rfl

/-- C2: a JSON record whose items field is a list gets exactly those item
values appended verbatim to its invoice's items, whatever other (top-level
item-shaped) fields the record carries; those fields do not influence the
result. -/
theorem json_nested_items_verbatim (pre : List JsonObj) (rec : JsonObj)
    (xs : List PyVal) (id : PyVal) (out : List InvoiceRecord)
    (hid : rec.lookup "invoice_id" = some id)
    (hnest : rec.lookup "items" = some (.plist xs))
    (hload : loadDataJson (some (pre ++ [rec])) = some out) :
    (recsWithId out id).map (·.items) = [jsonItemsFor id pre ++ xs] := by
  simp only [loadDataJson, Option.bind_some] at hload
  have hinv := loadJsonObjs_filter (pre ++ [rec]) [] out id hload
  have hocc : jsonOccurs id (pre ++ [rec]) = true := by
    unfold jsonOccurs
    rw [List.any_append]
    simp [List.any_cons, hid]
  have hitems : jsonItemsFor id (pre ++ [rec]) = jsonItemsFor id pre ++ xs := by
    unfold jsonItemsFor
    rw [List.filter_append, List.flatMap_append]
    simp [List.filter_cons, hid, jsonContrib, hnest]
  rw [hinv, hocc, hitems]
  simp [recsWithId, mergeSpec]

/-- C2 witness: a record with both a nested items list and a top-level
item_name; only the nested item survives, unchanged. -/
theorem json_nested_items_verbatim_witness :
    (recsWithId [⟨PyVal.pstr "B", PyVal.pnone, PyVal.pnone,
        [PyVal.pdict [("item_name", PyVal.pstr "n1")]]⟩] (PyVal.pstr "B")).map (·.items)
      = [jsonItemsFor (PyVal.pstr "B") []
          ++ [PyVal.pdict [("item_name", PyVal.pstr "n1")]]] :=
  json_nested_items_verbatim []
    [("invoice_id", PyVal.pstr "B"), ("item_name", PyVal.pstr "top"),
     ("items", PyVal.plist [PyVal.pdict [("item_name", PyVal.pstr "n1")]])]
    [PyVal.pdict [("item_name", PyVal.pstr "n1")]] (PyVal.pstr "B") _ rfl rfl rfl

theorem loadCsvRows_missing_key (rows : List CsvRow) :
    ∀ acc : List InvoiceRecord,
      (∃ row ∈ rows, row.lookup "invoice_id" = Option.none) →
      loadCsvRows acc rows = Option.none := by
  induction rows with
  | nil => intro acc h; rcases h with ⟨row, hmem, _⟩; cases hmem
  | cons row rest ih =>
    intro acc h
    cases hl : row.lookup "invoice_id" with
    | none => rw [loadCsvRows, hl]
    | some id =>
      rw [loadCsvRows, hl]
      rcases h with ⟨row2, hmem, h2⟩
      rcases List.mem_cons.mp hmem with heq | hmem2
      · rw [heq] at h2; rw [hl] at h2; cases h2
      · exact ih _ ⟨row2, hmem2, h2⟩

theorem loadJsonObjs_missing_key (objs : List JsonObj) :
    ∀ acc : List InvoiceRecord,
      (∃ rec ∈ objs, rec.lookup "invoice_id" = Option.none) →
      loadJsonObjs acc objs = Option.none := by
  induction objs with
  | nil => intro acc h; rcases h with ⟨rec, hmem, _⟩; cases hmem
  | cons rec rest ih =>
    intro acc h
    cases hl : rec.lookup "invoice_id" with
    | none => rw [loadJsonObjs, hl]
    | some id =>
      rw [loadJsonObjs, hl]
      rcases h with ⟨rec2, hmem, h2⟩
      rcases List.mem_cons.mp hmem with heq | hmem2
      · rw [heq] at h2; rw [hl] at h2; cases h2
      · exact ih _ ⟨rec2, hmem2, h2⟩

/-- C4: a failed read or parse (the None input) and a row or object without
the required invoice_id key both make load_data return None: no record at all
is returned, in particular never a partial list. -/
theorem load_data_empty_on_error :
    (∀ rows : List CsvRow,
        (∃ row ∈ rows, row.lookup "invoice_id" = Option.none) →
        loadDataCsv (some rows) = Option.none)
    ∧ (∀ objs : List JsonObj,
        (∃ rec ∈ objs, rec.lookup "invoice_id" = Option.none) →
        loadDataJson (some objs) = Option.none)
    ∧ loadDataCsv Option.none = Option.none
    ∧ loadDataJson Option.none = Option.none := by
  refine ⟨?_, ?_, rfl, rfl⟩
  · intro rows h
    simp only [loadDataCsv, Option.bind_some]
    exact loadCsvRows_missing_key rows [] h
  · intro objs h
    simp only [loadDataJson, Option.bind_some]
    exact loadJsonObjs_missing_key objs [] h

/-- C4 witness: a two-row CSV input whose second row lacks invoice_id yields
None even though the first row is well-formed; no partial result survives. -/
theorem load_data_empty_on_error_witness :
    loadDataCsv (some [[("invoice_id", "A"), ("amount", "1")], [("foo", "x")]])
      = Option.none :=
  load_data_empty_on_error.1 [[("invoice_id", "A"), ("amount", "1")], [("foo", "x")]]
    ⟨[("foo", "x")], by decide, by decide⟩

/-- Python repr of a value, approximated: container rendering is shallowly
faithful (no escaping inside strings) and a fraction rendering stands in for
the Python float repr.  The records the claims touch never hit those cases. -/
def ratStr (f : PFloat) : String :=
  if f.den = 1 then toString f.num ++ ".0" else toString f.num ++ "/" ++ toString f.den

mutual

def pyRepr : PyVal → String
  | .pnone => "None"
  | .pstr s => "\x27" ++ s ++ "\x27"
  | .pint n => toString n
  | .pfloat f => ratStr f
  | .plist xs => "[" ++ pyReprList xs ++ "]"
  | .pdict d => "\x7b" ++ pyReprDict d ++ "\x7d"

def pyReprList : List PyVal → String
  | [] => ""
  | [v] => pyRepr v
  | v :: rest => pyRepr v ++ ", " ++ pyReprList rest

def pyReprDict : List (String × PyVal) → String
  | [] => ""
  | [(k, v)] => "\x27" ++ k ++ "\x27: " ++ pyRepr v
  | (k, v) :: rest => "\x27" ++ k ++ "\x27: " ++ pyRepr v ++ ", " ++ pyReprDict rest

end

/-- Python str() of a value: strings pass through, anything else reprs. -/
def pyStr : PyVal → String
  | .pstr s => s
  | v => pyRepr v

/-- item.get(k, dflt) inside generate_html.  On a non-dict item the source
would raise AttributeError (uncaught); load_data only produces dict items
except through a verbatim nested JSON items list. -/
def dictGetV (v : PyVal) (k : String) (dflt : PyVal) : PyVal :=
  match v with
  | .pdict d => (d.lookup k).getD dflt
  | _ => dflt

/-- The numeric value of a digit list, most significant first. -/
def digitsNat (cs : List Char) : ℕ :=
  cs.foldl (fun n c => n * 10 + (c.toNat - 48)) 0

/-- A nonempty all-digit list, or failure. -/
def natDigitsOpt (cs : List Char) : Option ℕ :=
  if cs ≠ [] ∧ cs.all Char.isDigit then some (digitsNat cs) else Option.none

/-- Exponent part of a Python float literal, after the e. -/
def parseExpPart (cs : List Char) : Option Int :=
  match cs with
  | '+' :: r => (natDigitsOpt r).map Int.ofNat
  | '-' :: r => (natDigitsOpt r).map (fun n => -(n : Int))
  | r => (natDigitsOpt r).map Int.ofNat

/-- Unsigned Python float literal: digits, optional fraction, optional
exponent (underscore separators, inf and nan are not modelled). -/
def parseFloatUnsigned (cs : List Char) : Option PFloat :=
  let ip := cs.takeWhile Char.isDigit
  let r1 := cs.dropWhile Char.isDigit
  match r1 with
  | [] => if ip.isEmpty then Option.none else some (PFloat.ofInt (digitsNat ip))
  | '.' :: r2 =>
    let fp := r2.takeWhile Char.isDigit
    let r3 := r2.dropWhile Char.isDigit
    if ip.isEmpty ∧ fp.isEmpty then Option.none
    else
      let base : PFloat :=
        ⟨(digitsNat ip : Int) * (10 : Int) ^ fp.length + (digitsNat fp : Int),
          10 ^ fp.length⟩
      match r3 with
      | [] => some base
      | e :: r4 =>
        if e = 'e' ∨ e = 'E' then (parseExpPart r4).map base.mulPow10
        else Option.none
  | e :: r4 =>
    if (e = 'e' ∨ e = 'E') ∧ ¬ ip.isEmpty then
      (parseExpPart r4).map (PFloat.ofInt (digitsNat ip)).mulPow10
    else Option.none

/-- ASCII whitespace, the relevant case of what Python str.strip removes. -/
def isSpaceChar (c : Char) : Bool :=
  c = ' ' ∨ c = '\t' ∨ c = '\n' ∨ c = '\r' ∨ c = '\x0b' ∨ c = '\x0c'

/-- Python str.strip() on a character list. -/
def trimChars (cs : List Char) : List Char :=
  ((cs.dropWhile isSpaceChar).reverse.dropWhile isSpaceChar).reverse

/-- Python float(str): surrounding whitespace is ignored, an optional sign
precedes the unsigned literal. -/
def parseFloat (s : String) : Option PFloat :=
  match trimChars s.data with
  | '+' :: rest => parseFloatUnsigned rest
  | '-' :: rest => (parseFloatUnsigned rest).map PFloat.neg
  | cs => parseFloatUnsigned cs

/-- Python float(value) as used on amount: ints and floats convert, strings
parse, anything else (None, lists, dicts) raises TypeError, modelled as
failure. -/
def pyFloat : PyVal → Option PFloat
  | .pint n => some (PFloat.ofInt n)
  | .pfloat f => some f
  | .pstr s => parseFloat s
  | _ => Option.none

/-- The amount coercion of one item inside the generate_html loop. -/
def amountOf (it : PyVal) : Option PFloat :=
  pyFloat (dictGetV it "amount" (.pint 0))

/-- One table row of item_rows (src/main.py lines 169-174). -/
def itemRowStr (it : PyVal) : String :=
  "<tr>" ++ "<td>" ++ pyStr (dictGetV it "item_name" (.pstr "")) ++ "</td>"
    ++ "<td>" ++ pyStr (dictGetV it "quantity" (.pint 0)) ++ "</td>"
    ++ "<td>" ++ pyStr (dictGetV it "price" (.pint 0)) ++ "</td>"
    ++ "<td>" ++ pyStr (dictGetV it "amount" (.pint 0)) ++ "</td>" ++ "</tr>\n"

/-- The item loop of generate_html (src/main.py lines 166-178): accumulates
the markup rows and the running total, skipping amounts that fail coercion. -/
def itemsLoop (items : List PyVal) : String × PFloat :=
  items.foldl
    (fun acc it =>
      (acc.1 ++ itemRowStr it,
        match amountOf it with
        | some q => acc.2.add q
        | Option.none => acc.2))
    ("", PFloat.ofInt 0)

/-- Round num/den (den positive) to the nearest integer, ties to even: the
rounding that Python's fixed-point float formatting exposes. -/
def roundHalfEven (num : Int) (den : ℕ) : Int :=
  let f := Int.fdiv num den
  let r := num - f * den
  if 2 * r < den then f
  else if (den : Int) < 2 * r then f + 1
  else if f % 2 = 0 then f else f + 1

/-- Insert a space before every later group of three digits; the input is the
digit list reversed (least significant digit first). -/
def groupRev : List Char → ℕ → List Char
  | [], _ => []
  | c :: rest, n =>
    if n = 3 then ' ' :: c :: groupRev rest 1 else c :: groupRev rest (n + 1)

/-- Python format(total, ",.2f") followed by replacing commas with spaces
(src/main.py line 181): two decimal digits, integer digits in space-separated
groups of three, minus sign up front. -/
def formatFloat2 (x : PFloat) : String :=
  let n := roundHalfEven (x.num * 100) x.den
  let m := n.natAbs
  let sign := if n < 0 then "-" else ""
  let intDigits := (toString (m / 100)).data
  let grouped := String.mk ((groupRev intDigits.reverse 0).reverse)
  let frac := m % 100
  let fracStr := (if frac < 10 then "0" else "") ++ toString frac
  sign ++ grouped ++ "." ++ fracStr

/-- Python str.replace worker for a nonempty pattern p :: ps: leftmost
non-overlapping occurrences are replaced.  The second argument counts pattern
characters still to be skipped after a match, which keeps the recursion
structural. -/
def replaceGo (p : Char) (ps rep : List Char) : List Char → ℕ → List Char
  | [], _ => []
  | c :: rest, 0 =>
    if c = p ∧ ps.isPrefixOf rest then rep ++ replaceGo p ps rep rest ps.length
    else c :: replaceGo p ps rep rest 0
  | _ :: rest, k + 1 => replaceGo p ps rep rest k

/-- Python s.replace(pat, rep) for the nonempty literal patterns the renderer
uses. -/
def strReplace (s pat rep : List Char) : List Char :=
  match pat with
  | [] => s
  | p :: ps => replaceGo p ps rep s 0

def tokInvoice : List Char := "\x7b\x7b invoice_id \x7d\x7d".data

def tokCustomer : List Char := "\x7b\x7b customer_name \x7d\x7d".data

def tokDate : List Char := "\x7b\x7b date \x7d\x7d".data

def tokItemRows : List Char := "\x7b\x7b item_rows \x7d\x7d".data

def tokTotal : List Char := "\x7b\x7b total_amount \x7d\x7d".data

/-- generate_html (src/main.py lines 156-183): five sequential literal
replacements on the accumulated string. -/
def generate_html (template : List Char) (r : InvoiceRecord) : List Char :=
  let c1 := strReplace template tokInvoice (pyStr r.invoice_id).data
  let c2 := strReplace c1 tokCustomer (pyStr r.customer_name).data
  let c3 := strReplace c2 tokDate (pyStr r.date).data
  let lp := itemsLoop r.items
  let c4 := strReplace c3 tokItemRows lp.1.data
  strReplace c4 tokTotal (formatFloat2 lp.2).data

/-- The pattern occurs somewhere in the string. -/
def occursIn (p s : List Char) : Prop := ∃ u v, s = u ++ p ++ v

/-- The string starts with the pattern. -/
def startsW (p s : List Char) : Prop := ∃ v, s = p ++ v

theorem isPrefixOf_iff_startsW (p : List Char) :
    ∀ s : List Char, p.isPrefixOf s = true ↔ startsW p s := by
  induction p with
  | nil =>
    intro s
    simp [List.isPrefixOf, startsW]
  | cons a as ih =>
    intro s
    cases s with
    | nil =>
      simp only [List.isPrefixOf, startsW]
      constructor
      · intro h; cases h
      · rintro ⟨v, hv⟩; cases hv
    | cons b bs =>
      simp only [List.isPrefixOf, Bool.and_eq_true, beq_iff_eq, ih bs]
      constructor
      · rintro ⟨rfl, v, rfl⟩
        exact ⟨v, rfl⟩
      · rintro ⟨v, hv⟩
        rcases List.cons.inj hv with ⟨rfl, rfl⟩
        exact ⟨rfl, v, rfl⟩

theorem occursIn_cons (p : List Char) (c : Char) (rest : List Char) :
    occursIn p (c :: rest) ↔ startsW p (c :: rest) ∨ occursIn p rest := by
  constructor
  · rintro ⟨u, v, hv⟩
    cases u with
    | nil => exact Or.inl ⟨v, hv⟩
    | cons c2 u2 =>
      rcases List.cons.inj hv with ⟨rfl, hrest⟩
      exact Or.inr ⟨u2, v, hrest⟩
  · rintro (⟨v, hv⟩ | ⟨u, v, hv⟩)
    · exact ⟨[], v, hv⟩
    · exact ⟨c :: u, v, by rw [hv]; rfl⟩

/-- Executable occurrence test. -/
def occursB (p : List Char) : List Char → Bool
  | [] => p.isEmpty
  | c :: rest => p.isPrefixOf (c :: rest) || occursB p rest

theorem occursB_iff (p : List Char) :
    ∀ s : List Char, occursB p s = true ↔ occursIn p s := by
  intro s
  induction s with
  | nil =>
    simp only [occursB, List.isEmpty_iff, occursIn]
    constructor
    · rintro rfl; exact ⟨[], [], rfl⟩
    · rintro ⟨u, v, hv⟩
      rcases List.append_eq_nil.mp (List.append_eq_nil.mp hv.symm).1 with ⟨_, h2⟩
      exact h2
  | cons c rest ih =>
    simp only [occursB, Bool.or_eq_true, ih, isPrefixOf_iff_startsW, occursIn_cons]

instance occursIn.decidable (p s : List Char) : Decidable (occursIn p s) :=
  decidable_of_iff _ (occursB_iff p s)

instance startsW.decidable (p s : List Char) : Decidable (startsW p s) :=
  decidable_of_iff _ (isPrefixOf_iff_startsW p s)

theorem replaceGo_skip (p : Char) (ps rep : List Char) :
    ∀ xs w : List Char, replaceGo p ps rep (xs ++ w) xs.length = replaceGo p ps rep w 0 := by
  intro xs
  induction xs with
  | nil => intro w; rfl
  | cons x xs ih => intro w; exact ih w

theorem replaceGo_not_occurs (p : Char) (ps rep : List Char) :
    ∀ s : List Char, ¬ occursIn (p :: ps) s → replaceGo p ps rep s 0 = s := by
  intro s
  induction s with
  | nil => intro _; rfl
  | cons c rest ih =>
    intro h
    rw [replaceGo]
    have hguard : ¬ (c = p ∧ ps.isPrefixOf rest = true) := by
      rintro ⟨rfl, hp⟩
      rcases (isPrefixOf_iff_startsW ps rest).mp hp with ⟨v, rfl⟩
      exact h ⟨[], v, rfl⟩
    rw [if_neg hguard, ih (fun hocc => h ((occursIn_cons _ _ _).mpr (Or.inr hocc)))]

theorem replaceGo_cross (p : Char) (ps rep : List Char) :
    ∀ a b : List Char, p ∉ a → ¬ occursIn (p :: ps) b →
      replaceGo p ps rep (a ++ (p :: ps) ++ b) 0 = a ++ rep ++ b := by
  intro a
  induction a with
  | nil =>
    intro b _ hb
    show replaceGo p ps rep (p :: (ps ++ b)) 0 = rep ++ b
    rw [replaceGo]
    have hguard : p = p ∧ ps.isPrefixOf (ps ++ b) = true :=
      ⟨rfl, (isPrefixOf_iff_startsW ps (ps ++ b)).mpr ⟨b, rfl⟩⟩
    rw [if_pos hguard, replaceGo_skip, replaceGo_not_occurs p ps rep b hb]
  | cons c a2 ih =>
    intro b ha hb
    have hc : c ≠ p := fun hcp => ha (hcp ▸ List.mem_cons_self c a2)
    show replaceGo p ps rep (c :: (a2 ++ (p :: ps) ++ b)) 0 = c :: (a2 ++ rep ++ b)
    rw [replaceGo]
    have hguard : ¬ (c = p ∧ ps.isPrefixOf (a2 ++ (p :: ps) ++ b) = true) := by
      rintro ⟨rfl, _⟩
      exact hc rfl
    rw [if_neg hguard, ih b (fun hmem => ha (List.mem_cons_of_mem c hmem)) hb]

theorem head_mem_of_occurs (p : Char) (ps s : List Char) (h : occursIn (p :: ps) s) :
    p ∈ s := by
  rcases h with ⟨u, v, rfl⟩
  simp

theorem not_occurs_of_head_not_mem (p : Char) (ps s : List Char) (h : p ∉ s) :
    ¬ occursIn (p :: ps) s :=
  fun hocc => h (head_mem_of_occurs p ps s hocc)

theorem occurs_through_left (p : Char) (ps : List Char) :
    ∀ u w : List Char, p ∉ u → occursIn (p :: ps) (u ++ w) → occursIn (p :: ps) w := by
  intro u
  induction u with
  | nil => intro w _ h; exact h
  | cons c u2 ih =>
    intro w hu h
    rcases (occursIn_cons _ _ _).mp h with ⟨v, hv⟩ | h2
    · rcases List.cons.inj hv with ⟨heq, _⟩
      exact absurd (heq ▸ List.mem_cons_self c u2) hu
    · exact ih w (fun hmem => hu (List.mem_cons_of_mem c hmem)) h2

theorem not_startsW_of_take (t s v : List Char) (hlen : t.length ≤ s.length)
    (hne : s.take t.length ≠ t) : ¬ startsW t (s ++ v) := by
  rintro ⟨w, hw⟩
  apply hne
  have h1 : (s ++ v).take t.length = (t ++ w).take t.length := by rw [hw]
  rw [List.take_append_of_le_length hlen, List.take_left] at h1
  exact h1

/-- Two distinct placeholder tokens cannot collide: a token t cannot occur in
x ++ s ++ y when x and y are brace-free, both tokens start with two braces and
are otherwise brace-free, and t is not a prefix of s ++ y. -/
theorem not_occurs_cross (u v tr sr : List Char) (hu : '{' ∉ u) (hv : '{' ∉ v)
    (hsr : '{' ∉ sr)
    (hns : ¬ startsW ('{' :: '{' :: tr) (('{' :: '{' :: sr) ++ v)) :
    ¬ occursIn ('{' :: '{' :: tr) (u ++ ('{' :: '{' :: sr) ++ v) := by
  intro hocc
  have h1 : occursIn ('{' :: '{' :: tr) (('{' :: '{' :: sr) ++ v) := by
    apply occurs_through_left '{' ('{' :: tr) u _ hu
    rw [← List.append_assoc]
    exact hocc
  rcases (occursIn_cons _ _ _).mp h1 with hs1 | h2
  · exact hns hs1
  have hmem : '{' ∉ sr ++ v := by
    intro hm
    rcases List.mem_append.mp hm with hm2 | hm2
    · exact hsr hm2
    · exact hv hm2
  rcases (occursIn_cons _ _ _).mp h2 with ⟨w, hw⟩ | h3
  · have htail : sr ++ v = '{' :: (tr ++ w) := (List.cons.inj hw).2
    exact hmem (by rw [htail]; exact List.mem_cons_self '{' (tr ++ w))
  · exact hmem (head_mem_of_occurs _ _ _ h3)

/-- strReplace leaves a string without occurrences of a nonempty pattern
untouched. -/
theorem strReplace_no (s pat rep : List Char) (hne : pat ≠ [])
    (h : ¬ occursIn pat s) : strReplace s pat rep = s := by
  cases pat with
  | nil => cases hne rfl
  | cons p ps => exact replaceGo_not_occurs p ps rep s h

/-- strReplace on a string with a unique explicit occurrence replaces exactly
it. -/
theorem strReplace_cross (a b pat rep : List Char) (p : Char) (ps : List Char)
    (hpat : pat = p :: ps) (ha : p ∉ a) (hb : ¬ occursIn pat b) :
    strReplace (a ++ pat ++ b) pat rep = a ++ rep ++ b := by
  subst hpat
  exact replaceGo_cross p ps rep a b ha hb

theorem not_occurs_tok (tok s : List Char) (p : Char) (ps : List Char)
    (htok : tok = p :: ps) (h : p ∉ s) : ¬ occursIn tok s :=
  htok ▸ not_occurs_of_head_not_mem p ps s h

theorem tokInvoice_cons : tokInvoice = '{' :: '{' :: " invoice_id \x7d\x7d".data := rfl

theorem tokCustomer_cons : tokCustomer = '{' :: '{' :: " customer_name \x7d\x7d".data := rfl

theorem tokDate_cons : tokDate = '{' :: '{' :: " date \x7d\x7d".data := rfl

theorem tokItemRows_cons : tokItemRows = '{' :: '{' :: " item_rows \x7d\x7d".data := rfl

theorem tokTotal_cons : tokTotal = '{' :: '{' :: " total_amount \x7d\x7d".data := rfl

/-- Sum of the items' amounts, each coerced to the float model, a failed
coercion counting as zero. -/
def sumAmounts (items : List PyVal) : PFloat :=
  (items.map (fun it => (amountOf it).getD (PFloat.ofInt 0))).foldl PFloat.add
    (PFloat.ofInt 0)

/-- Sum of only those amounts that coerce; failures are dropped. -/
def sumCoerced (items : List PyVal) : PFloat :=
  (items.filterMap amountOf).foldl PFloat.add (PFloat.ofInt 0)

theorem PFloat.add_zero (q : PFloat) : q.add (PFloat.ofInt 0) = q := by
  simp [PFloat.add, PFloat.ofInt]

theorem itemsLoop_snd_aux (items : List PyVal) :
    ∀ (s : String) (q : PFloat),
      (items.foldl
        (fun acc it =>
          (acc.1 ++ itemRowStr it,
            match amountOf it with
            | some x => acc.2.add x
            | Option.none => acc.2)) (s, q)).2
        = List.foldl PFloat.add q
            (items.map (fun it => (amountOf it).getD (PFloat.ofInt 0))) := by
  induction items with
  | nil => intro s q; rfl
  | cons it rest ih =>
    intro s q
    cases h : amountOf it with
    | none => simp [List.foldl_cons, h, ih, PFloat.add_zero]
    | some x => simp [List.foldl_cons, h, ih]

theorem itemsLoop_snd (items : List PyVal) : (itemsLoop items).2 = sumAmounts items :=
  itemsLoop_snd_aux items "" (PFloat.ofInt 0)

theorem sum_map_eq_filterMap (items : List PyVal) :
    ∀ q : PFloat,
      List.foldl PFloat.add q (items.map (fun it => (amountOf it).getD (PFloat.ofInt 0)))
        = List.foldl PFloat.add q (items.filterMap amountOf) := by
  induction items with
  | nil => intro q; rfl
  | cons it rest ih =>
    intro q
    cases h : amountOf it with
    | none => simp [List.filterMap_cons, h, PFloat.add_zero, ih]
    | some x => simp [List.filterMap_cons, h, ih]

theorem sumAmounts_eq_sumCoerced (items : List PyVal) :
    sumAmounts items = sumCoerced items := by
  unfold sumAmounts sumCoerced
  exact sum_map_eq_filterMap items (PFloat.ofInt 0)

/-- Shared shape fact: on a template that is exactly the total placeholder,
the first four substitutions do nothing and the fifth replaces the token. -/
theorem generate_html_total (r : InvoiceRecord) :
    generate_html tokTotal r = (formatFloat2 ((itemsLoop r.items).2)).data := by
  simp only [generate_html]
  rw [strReplace_no tokTotal tokInvoice _ (by decide) (by decide)]
  rw [strReplace_no tokTotal tokCustomer _ (by decide) (by decide)]
  rw [strReplace_no tokTotal tokDate _ (by decide) (by decide)]
  rw [strReplace_no tokTotal tokItemRows _ (by decide) (by decide)]
  have hsplit : tokTotal = ([] : List Char) ++ tokTotal ++ [] := by simp
  nth_rewrite 1 [hsplit]
  rw [strReplace_cross [] [] tokTotal _ '{' _ tokTotal_cons (by simp) (by decide)]
  simp

/-- C5: on a template consisting of the total placeholder, generate_html
substitutes exactly the sum of the items' coerced amounts formatted by
formatFloat2 (two decimals, space-separated thousands groups); in particular
amounts 1000 and 234.5 yield the string 1 234.50. -/
theorem total_amount_formatting :
    (∀ r : InvoiceRecord,
        generate_html tokTotal r = (formatFloat2 (sumAmounts r.items)).data)
    ∧ generate_html tokTotal
        ⟨PyVal.pstr "A", PyVal.pnone, PyVal.pnone,
          [PyVal.pdict [("amount", PyVal.pstr "1000")],
           PyVal.pdict [("amount", PyVal.pstr "234.5")]]⟩
        = "1 234.50".data := by
  refine ⟨?_, by decide⟩
  intro r
  rw [generate_html_total, itemsLoop_snd]

/-- C8: amounts that fail float coercion are skipped: the total substituted by
generate_html is the sum over only the coercible amounts (the loop never
aborts), and amounts x and 10 yield the string 10.00. -/
theorem non_numeric_amount_skipped :
    (∀ r : InvoiceRecord,
        generate_html tokTotal r = (formatFloat2 (sumCoerced r.items)).data)
    ∧ generate_html tokTotal
        ⟨PyVal.pstr "A", PyVal.pnone, PyVal.pnone,
          [PyVal.pdict [("amount", PyVal.pstr "x")],
           PyVal.pdict [("amount", PyVal.pstr "10")]]⟩
        = "10.00".data := by
  refine ⟨?_, by decide⟩
  intro r
  rw [generate_html_total, itemsLoop_snd, sumAmounts_eq_sumCoerced]

/-- C9: generate_html only changes occurrences of the five recognized tokens:
a template containing none of them (unrecognized placeholders included) passes
through untouched, and a template that is brace-free text around one
invoice_id token comes out with exactly that token replaced. -/
theorem generate_html_frame :
    (∀ (t : List Char) (r : InvoiceRecord),
        ¬ occursIn tokInvoice t → ¬ occursIn tokCustomer t → ¬ occursIn tokDate t →
        ¬ occursIn tokItemRows t → ¬ occursIn tokTotal t →
        generate_html t r = t)
    ∧ (∀ (a b : List Char) (r : InvoiceRecord),
        '{' ∉ a → '{' ∉ b → '{' ∉ (pyStr r.invoice_id).data →
        generate_html (a ++ tokInvoice ++ b) r = a ++ (pyStr r.invoice_id).data ++ b) := by
  constructor
  · intro t r h1 h2 h3 h4 h5
    simp only [generate_html]
    rw [strReplace_no t tokInvoice _ (by decide) h1,
      strReplace_no t tokCustomer _ (by decide) h2,
      strReplace_no t tokDate _ (by decide) h3,
      strReplace_no t tokItemRows _ (by decide) h4,
      strReplace_no t tokTotal _ (by decide) h5]
  · intro a b r ha hb hv
    simp only [generate_html]
    rw [strReplace_cross a b tokInvoice _ '{' _ tokInvoice_cons ha
      (not_occurs_tok _ _ '{' _ tokInvoice_cons hb)]
    have hbig : '{' ∉ a ++ (pyStr r.invoice_id).data ++ b := by
      intro hm
      rcases List.mem_append.mp hm with hm1 | hm1
      · rcases List.mem_append.mp hm1 with hm2 | hm2
        · exact ha hm2
        · exact hv hm2
      · exact hb hm1
    rw [strReplace_no _ tokCustomer _ (by decide)
        (not_occurs_tok _ _ '{' _ tokCustomer_cons hbig),
      strReplace_no _ tokDate _ (by decide) (not_occurs_tok _ _ '{' _ tokDate_cons hbig),
      strReplace_no _ tokItemRows _ (by decide)
        (not_occurs_tok _ _ '{' _ tokItemRows_cons hbig),
      strReplace_no _ tokTotal _ (by decide) (not_occurs_tok _ _ '{' _ tokTotal_cons hbig)]

/-- C9 witness: a placeholder-free template passes through unchanged, and the
template that is exactly the invoice_id token renders record A1 to A1. -/
theorem generate_html_frame_witness :
    generate_html "<p>no placeholders</p>".data
        ⟨PyVal.pstr "Z", PyVal.pnone, PyVal.pnone, []⟩
      = "<p>no placeholders</p>".data
    ∧ generate_html (([] : List Char) ++ tokInvoice ++ [])
        ⟨PyVal.pstr "A1", PyVal.pnone, PyVal.pnone, []⟩
      = [] ++ "A1".data ++ [] :=
  ⟨generate_html_frame.1 _ _ (by decide) (by decide) (by decide) (by decide) (by decide),
   generate_html_frame.2 [] [] _ (by decide) (by decide) (by decide)⟩

/-- Shared shape fact: on a template that is exactly the customer placeholder,
the invoice substitution does nothing, the customer substitution injects the
customer value, and the remaining three substitutions act on it. -/
theorem generate_html_customer (r : InvoiceRecord) :
    generate_html tokCustomer r
      = strReplace
          (strReplace
            (strReplace ((pyStr r.customer_name).data) tokDate (pyStr r.date).data)
            tokItemRows ((itemsLoop r.items).1).data)
          tokTotal (formatFloat2 ((itemsLoop r.items).2)).data := by
  simp only [generate_html]
  rw [strReplace_no tokCustomer tokInvoice _ (by decide) (by decide)]
  have hsplit : tokCustomer = ([] : List Char) ++ tokCustomer ++ [] := by simp
  nth_rewrite 1 [hsplit]
  rw [strReplace_cross [] [] tokCustomer _ '{' _ tokCustomer_cons (by simp) (by decide)]
  simp

/-- C10: the substitutions are sequential over the accumulated string, so a
later placeholder token occurring inside the substituted customer_name value
is itself replaced by the corresponding computed value (shown for the date,
item_rows and total_amount tokens embedded in brace-free context). -/
theorem placeholder_cascade :
    (∀ (x y : List Char) (r : InvoiceRecord),
        '{' ∉ x → '{' ∉ y →
        r.customer_name = PyVal.pstr (String.mk (x ++ tokDate ++ y)) →
        '{' ∉ (pyStr r.date).data →
        generate_html tokCustomer r = x ++ (pyStr r.date).data ++ y)
    ∧ (∀ (x y : List Char) (r : InvoiceRecord),
        '{' ∉ x → '{' ∉ y →
        r.customer_name = PyVal.pstr (String.mk (x ++ tokItemRows ++ y)) →
        '{' ∉ ((itemsLoop r.items).1).data →
        generate_html tokCustomer r = x ++ ((itemsLoop r.items).1).data ++ y)
    ∧ (∀ (x y : List Char) (r : InvoiceRecord),
        '{' ∉ x → '{' ∉ y →
        r.customer_name = PyVal.pstr (String.mk (x ++ tokTotal ++ y)) →
        generate_html tokCustomer r = x ++ (formatFloat2 (sumAmounts r.items)).data ++ y) := by
  refine ⟨?_, ?_, ?_⟩
  · intro x y r hx hy hcn hdv
    rw [generate_html_customer]
    have hv : (pyStr r.customer_name).data = x ++ tokDate ++ y := by rw [hcn]; rfl
    rw [hv, strReplace_cross x y tokDate _ '{' _ tokDate_cons hx
      (not_occurs_tok _ _ '{' _ tokDate_cons hy)]
    have hbig : '{' ∉ x ++ (pyStr r.date).data ++ y := by
      intro hm
      rcases List.mem_append.mp hm with hm1 | hm1
      · rcases List.mem_append.mp hm1 with hm2 | hm2
        · exact hx hm2
        · exact hdv hm2
      · exact hy hm1
    rw [strReplace_no _ tokItemRows _ (by decide)
        (not_occurs_tok _ _ '{' _ tokItemRows_cons hbig),
      strReplace_no _ tokTotal _ (by decide) (not_occurs_tok _ _ '{' _ tokTotal_cons hbig)]
  · intro x y r hx hy hcn hirv
    rw [generate_html_customer]
    have hv : (pyStr r.customer_name).data = x ++ tokItemRows ++ y := by rw [hcn]; rfl
    have hnoDate : ¬ occursIn tokDate (x ++ tokItemRows ++ y) := by
      rw [tokDate_cons, tokItemRows_cons]
      refine not_occurs_cross x y _ _ hx hy (by decide) ?_
      exact not_startsW_of_take _ _ y (by decide) (by decide)
    rw [hv, strReplace_no _ tokDate _ (by decide) hnoDate,
      strReplace_cross x y tokItemRows _ '{' _ tokItemRows_cons hx
        (not_occurs_tok _ _ '{' _ tokItemRows_cons hy)]
    have hbig : '{' ∉ x ++ ((itemsLoop r.items).1).data ++ y := by
      intro hm
      rcases List.mem_append.mp hm with hm1 | hm1
      · rcases List.mem_append.mp hm1 with hm2 | hm2
        · exact hx hm2
        · exact hirv hm2
      · exact hy hm1
    rw [strReplace_no _ tokTotal _ (by decide) (not_occurs_tok _ _ '{' _ tokTotal_cons hbig)]
  · intro x y r hx hy hcn
    rw [generate_html_customer]
    have hv : (pyStr r.customer_name).data = x ++ tokTotal ++ y := by rw [hcn]; rfl
    have hnoDate : ¬ occursIn tokDate (x ++ tokTotal ++ y) := by
      rw [tokDate_cons, tokTotal_cons]
      refine not_occurs_cross x y _ _ hx hy (by decide) ?_
      exact not_startsW_of_take _ _ y (by decide) (by decide)
    have hnoItems : ¬ occursIn tokItemRows (x ++ tokTotal ++ y) := by
      rw [tokItemRows_cons, tokTotal_cons]
      refine not_occurs_cross x y _ _ hx hy (by decide) ?_
      exact not_startsW_of_take _ _ y (by decide) (by decide)
    rw [hv, strReplace_no _ tokDate _ (by decide) hnoDate,
      strReplace_no _ tokItemRows _ (by decide) hnoItems,
      strReplace_cross x y tokTotal _ '{' _ tokTotal_cons hx
        (not_occurs_tok _ _ '{' _ tokTotal_cons hy),
      itemsLoop_snd]

/-- C10 witness: a customer_name value that is literally one of the three
later tokens is substituted by the corresponding computed value. -/
theorem placeholder_cascade_witness :
    generate_html tokCustomer
        ⟨PyVal.pstr "A", PyVal.pstr "\x7b\x7b date \x7d\x7d", PyVal.pstr "2024", []⟩
      = "2024".data
    ∧ generate_html tokCustomer
        ⟨PyVal.pstr "A", PyVal.pstr "\x7b\x7b item_rows \x7d\x7d", PyVal.pnone, []⟩
      = "".data
    ∧ generate_html tokCustomer
        ⟨PyVal.pstr "A", PyVal.pstr "\x7b\x7b total_amount \x7d\x7d", PyVal.pnone,
          [PyVal.pdict [("amount", PyVal.pstr "7")]]⟩
      = "7.00".data :=
  ⟨placeholder_cascade.1 [] [] _ (by decide) (by decide) (by decide) (by decide),
   placeholder_cascade.2.1 [] [] _ (by decide) (by decide) (by decide) (by decide),
   placeholder_cascade.2.2 [] [] _ (by decide) (by decide) (by decide)⟩

/-- Python str.lower() on a character list (ASCII case mapping, which covers
the keyword all that the program compares against). -/
def toLowerChars (cs : List Char) : List Char := cs.map Char.toLower

/-- Python choice.split(",") on a character list: one group per comma,
empty groups preserved. -/
def splitOnComma : List Char → List (List Char)
  | [] => [[]]
  | c :: rest =>
    match splitOnComma rest with
    | [] => [[c]]
    | g :: gs => if c = ',' then [] :: g :: gs else (c :: g) :: gs

/-- Python int(str): surrounding whitespace ignored, optional sign, decimal
digits (underscore separators are not modelled). -/
def parseIntStr (cs : List Char) : Option Int :=
  match trimChars cs with
  | [] => Option.none
  | '+' :: rest => (natDigitsOpt rest).map Int.ofNat
  | '-' :: rest => (natDigitsOpt rest).map (fun n => -(n : Int))
  | cs2 => (natDigitsOpt cs2).map Int.ofNat

/-- Placeholder record for safe indexing; selection only indexes in range. -/
def defaultRec : InvoiceRecord := ⟨.pnone, .pnone, .pnone, []⟩

/-- The outcome of handling one line of user input in select_records: either a
selection is returned, or the loop reports and prompts again. -/
inductive SelectOutcome where
  | selected (rs : List InvoiceRecord)
  | emptyInput
  | badInput
  | invalidNumbers (ns : List String)
  | nothingSelected
deriving DecidableEq

/-- The zero-based indices parsed from the user's choice (src/main.py line
130); any token that fails int() aborts the whole line via ValueError. -/
def choiceIdxs (choice : List Char) : Option (List Int) :=
  (splitOnComma choice).mapM
    (fun tok => (parseIntStr (trimChars tok)).map (fun n => n - 1))

/-- One iteration of the select_records input loop (src/main.py lines
119-153).  Python's sorted(list(set(valid))) is exactly the ascending list of
distinct in-range indices, modelled by filtering List.range. -/
def selectParse (records : List InvoiceRecord) (input : List Char) : SelectOutcome :=
  let choice := toLowerChars (trimChars input)
  if choice = "all".data then .selected records
  else if choice = [] then .emptyInput
  else
    match choiceIdxs choice with
    | Option.none => .badInput
    | some idxs =>
      let invalid := idxs.filter (fun i => !decide (0 ≤ i ∧ i < (records.length : Int)))
      if invalid ≠ [] then .invalidNumbers (invalid.map (fun i => toString (i + 1)))
      else
        let valid := idxs.filter (fun i => decide (0 ≤ i ∧ i < (records.length : Int)))
        let sel := ((List.range records.length).filter
            (fun n => valid.contains (Int.ofNat n))).map (fun n => records.getD n defaultRec)
        if sel ≠ [] then .selected sel else .nothingSelected

/-- The re-prompting loop, driven by a stream of input lines; None means the
stream ran out while the real loop would still be prompting. -/
def selectLoop (records : List InvoiceRecord) : List (List Char) → Option (List InvoiceRecord)
  | [] => Option.none
  | inp :: rest =>
    match selectParse records inp with
    | .selected rs => some rs
    | _ => selectLoop records rest

/-- select_records (src/main.py lines 106-153): an empty record list returns
immediately without prompting; otherwise the loop consumes input lines until
a selection is made. -/
def select_records (records : List InvoiceRecord) (inputs : List (List Char)) :
    Option (List InvoiceRecord) :=
  if records.isEmpty then some [] else selectLoop records inputs

theorem select_records_loop (records : List InvoiceRecord)
    (inputs : List (List Char)) (hne : records ≠ []) :
    select_records records inputs = selectLoop records inputs := by
  unfold select_records
  rw [if_neg (fun h => hne (List.isEmpty_iff.mp h))]

/-- C6: the token all (case-insensitive) selects every record; a list of
in-range one-based numbers selects the corresponding records deduplicated and
in ascending original order (so 2,2,1 on three records yields records one and
two in that order); an empty record list returns empty without consuming any
input. -/
theorem select_records_selection :
    (∀ (records : List InvoiceRecord) (inp : List Char) (rest : List (List Char)),
        records ≠ [] → toLowerChars (trimChars inp) = "all".data →
        select_records records (inp :: rest) = some records)
    ∧ (∀ r1 r2 r3 : InvoiceRecord,
        select_records [r1, r2, r3] ["2,2,1".data] = some [r1, r2])
    ∧ (∀ inputs : List (List Char), select_records [] inputs = some [])
    ∧ (∀ (records : List InvoiceRecord) (inp : List Char) (rest : List (List Char))
          (idxs : List Int),
        records ≠ [] →
        toLowerChars (trimChars inp) ≠ "all".data →
        choiceIdxs (toLowerChars (trimChars inp)) = some idxs →
        idxs ≠ [] →
        (∀ i ∈ idxs, 0 ≤ i ∧ i < (records.length : Int)) →
        select_records records (inp :: rest)
          = some (((List.range records.length).filter
              (fun n => idxs.contains (Int.ofNat n))).map
                (fun n => records.getD n defaultRec))) := by
  refine ⟨?_, ?_, ?_, ?_⟩
  · intro records inp rest hne hall
    rw [select_records_loop _ _ hne, selectLoop]
    have hsel : selectParse records inp = .selected records := by
      simp only [selectParse]
      rw [if_pos hall]
    rw [hsel]
  · intro r1 r2 r3
    rfl
  · intro inputs
    rfl
  · intro records inp rest idxs hne hnall hidx hnn hinr
    have hch : toLowerChars (trimChars inp) ≠ [] := by
      intro h0
      rw [h0] at hidx
      exact Option.noConfusion hidx
    have hinv : idxs.filter (fun i => !decide (0 ≤ i ∧ i < (records.length : Int))) = [] := by
      rw [List.filter_eq_nil_iff]
      intro i hi
      simp [hinr i hi]
    have hval : idxs.filter (fun i => decide (0 ≤ i ∧ i < (records.length : Int))) = idxs := by
      rw [List.filter_eq_self]
      intro i hi
      simp [hinr i hi]
    have hselne : (((List.range records.length).filter
        (fun n => idxs.contains (Int.ofNat n))).map
          (fun n => records.getD n defaultRec)) ≠ [] := by
      intro h0
      cases idxs with
      | nil => exact hnn rfl
      | cons i0 irest =>
        have h1 := hinr i0 (List.mem_cons_self i0 irest)
        have hn0 : Int.ofNat i0.toNat = i0 := Int.toNat_of_nonneg h1.1
        have hlt : i0.toNat < records.length := by omega
        have hmemr : i0.toNat ∈ List.range records.length := List.mem_range.mpr hlt
        have hcont : (i0 :: irest).contains (Int.ofNat i0.toNat) = true := by
          rw [hn0]
          simp [List.contains_cons]
        have hmemf : i0.toNat ∈ (List.range records.length).filter
            (fun n => (i0 :: irest).contains (Int.ofNat n)) :=
          List.mem_filter.mpr ⟨hmemr, hcont⟩
        rw [List.map_eq_nil_iff] at h0
        rw [h0] at hmemf
        exact absurd hmemf (List.not_mem_nil _)
    have hsel : selectParse records inp
        = .selected (((List.range records.length).filter
            (fun n => idxs.contains (Int.ofNat n))).map
              (fun n => records.getD n defaultRec)) := by
      simp only [selectParse]
      rw [if_neg hnall, if_neg hch]
      simp only [hidx]
      rw [hinv, hval]
      rw [if_neg (fun h => h rfl), if_pos hselne]
    rw [select_records_loop _ _ hne, selectLoop, hsel]

/-- C7: a numeric list containing an out-of-range number is rejected as a
whole: the outcome names exactly the offending numbers, nothing is selected
from the valid entries, and the loop goes on to the next input line. -/
theorem out_of_range_rejected (records : List InvoiceRecord) (inp : List Char)
    (rest : List (List Char)) (idxs : List Int)
    (hnall : toLowerChars (trimChars inp) ≠ "all".data)
    (hidx : choiceIdxs (toLowerChars (trimChars inp)) = some idxs)
    (hbad : idxs.filter (fun i => !decide (0 ≤ i ∧ i < (records.length : Int))) ≠ []) :
    selectParse records inp
        = .invalidNumbers ((idxs.filter
            (fun i => !decide (0 ≤ i ∧ i < (records.length : Int)))).map
              (fun i => toString (i + 1)))
    ∧ (records ≠ [] →
        select_records records (inp :: rest) = select_records records rest) := by
  have hch : toLowerChars (trimChars inp) ≠ [] := by
    intro h0
    rw [h0] at hidx
    exact Option.noConfusion hidx
  have hsel : selectParse records inp
      = .invalidNumbers ((idxs.filter
          (fun i => !decide (0 ≤ i ∧ i < (records.length : Int)))).map
            (fun i => toString (i + 1))) := by
    simp only [selectParse]
    rw [if_neg hnall, if_neg hch]
    simp only [hidx]
    rw [if_pos hbad]
  refine ⟨hsel, fun hne => ?_⟩
  rw [select_records_loop _ _ hne, select_records_loop _ _ hne, selectLoop, hsel]

/-- C6 witness: All (any case, padded) selects the whole list, and 2,1 on a
two-record list selects both records in ascending order. -/
theorem select_records_selection_witness :
    select_records [defaultRec] [" All ".data] = some [defaultRec]
    ∧ select_records [defaultRec, defaultRec] ["2,1".data]
        = some [defaultRec, defaultRec] :=
  ⟨select_records_selection.1 [defaultRec] " All ".data [] (by decide) (by decide),
   select_records_selection.2.2.2 [defaultRec, defaultRec] "2,1".data [] [1, 0]
     (by decide) (by decide) (by decide) (by decide) (by decide)⟩

/-- C7 witness: the input 5 on a three-record list is rejected naming 5, and
the loop moves on to the next prompt. -/
theorem out_of_range_rejected_witness :
    selectParse [defaultRec, defaultRec, defaultRec] "5".data
        = SelectOutcome.invalidNumbers ["5"]
    ∧ select_records [defaultRec, defaultRec, defaultRec] ["5".data]
        = select_records [defaultRec, defaultRec, defaultRec] [] := by
  have h := out_of_range_rejected [defaultRec, defaultRec, defaultRec] "5".data [] [4]
    (by decide) (by decide) (by decide)
  exact ⟨h.1, h.2 (by decide)⟩

/-- The line printed when writing the temporary HTML fails (src/main.py line
247): it interpolates only the exception, not the invoice id. -/
def writeErrLine (e : String) : String :=
  "Не удалось сохранить временный HTML: " ++ e

/-- The per-file success line (src/main.py line 256). -/
def createdLine (path : String) : String := "  ✓ Создан: " ++ path

/-- The line printed when PDF rendering fails (src/main.py line 259): it
interpolates the invoice id and the exception. -/
def renderErrLine (id : PyVal) (e : String) : String :=
  "  ✗ Ошибка при создании PDF для ID " ++ pyStr id ++ ": " ++ e

/-- The output path f"output/({invoice_id})_{template_name}.pdf". -/
def pdfPath (tname : String) (r : InvoiceRecord) : String :=
  "output/(" ++ pyStr r.invoice_id ++ ")_" ++ tname ++ ".pdf"

/-- The per-record export loop of main (src/main.py lines 238-259), returning
the printed lines and the generated files.  The external collaborators are
oracles per iteration: None is success, some e an exception with message e.
A failed temporary-HTML write skips to the next record; a failed render
reports the id and continues; a success records the output path. -/
def exportLoop (template : List Char) (tname : String)
    (writeRes renderRes : ℕ → Option String) :
    List InvoiceRecord → ℕ → List String × List String
  | [], _ => ([], [])
  | r :: rest, i =>
    let _html := generate_html template r
    match writeRes i with
    | some e =>
      let acc := exportLoop template tname writeRes renderRes rest (i + 1)
      (writeErrLine e :: acc.1, acc.2)
    | Option.none =>
      match renderRes i with
      | some e =>
        let acc := exportLoop template tname writeRes renderRes rest (i + 1)
        (renderErrLine r.invoice_id e :: acc.1, acc.2)
      | Option.none =>
        let acc := exportLoop template tname writeRes renderRes rest (i + 1)
        (createdLine (pdfPath tname r) :: acc.1, pdfPath tname r :: acc.2)

/-- The loop followed by the completion message of main (lines 261-268): one
final line saying whether anything was generated — no numeric count. -/
def exportRun (template : List Char) (tname : String)
    (writeRes renderRes : ℕ → Option String) (records : List InvoiceRecord) :
    List String × List String :=
  let res := exportLoop template tname writeRes renderRes records 0
  (res.1 ++ [if res.2.isEmpty then "\nНе было сгенерировано ни одного файла."
             else "\nГенерация завершена."],
   res.2)

/-- The files the loop is expected to produce: one per record whose write and
render both succeed, in selection order. -/
def expectedOuts (tname : String) (writeRes renderRes : ℕ → Option String) :
    List InvoiceRecord → ℕ → List String
  | [], _ => []
  | r :: rest, i =>
    (if writeRes i = Option.none ∧ renderRes i = Option.none
     then [pdfPath tname r] else [])
      ++ expectedOuts tname writeRes renderRes rest (i + 1)

/-- C3 (amended): per-record failures do not stop the batch — every record
whose write and render succeed produces its file even when other records
fail; a write failure is reported (with the exception only), a render failure
is reported with the offending invoice id; and the run ends with a message
saying whether any file was produced, not with a success count. -/
theorem export_best_effort :
    (∀ (template : List Char) (tname : String)
        (writeRes renderRes : ℕ → Option String) (records : List InvoiceRecord) (i : ℕ),
        (exportLoop template tname writeRes renderRes records i).2
          = expectedOuts tname writeRes renderRes records i)
    ∧ (∀ (template : List Char) (tname : String)
        (writeRes renderRes : ℕ → Option String) (records : List InvoiceRecord)
        (i k : ℕ) (e : String),
        k < records.length → writeRes (i + k) = some e →
        writeErrLine e ∈ (exportLoop template tname writeRes renderRes records i).1)
    ∧ (∀ (template : List Char) (tname : String)
        (writeRes renderRes : ℕ → Option String) (records : List InvoiceRecord)
        (i k : ℕ) (e : String),
        k < records.length → writeRes (i + k) = Option.none →
        renderRes (i + k) = some e →
        renderErrLine (records.getD k defaultRec).invoice_id e
          ∈ (exportLoop template tname writeRes renderRes records i).1)
    ∧ (∀ (template : List Char) (tname : String)
        (writeRes renderRes : ℕ → Option String) (records : List InvoiceRecord),
        (exportRun template tname writeRes renderRes records).1
          = (exportLoop template tname writeRes renderRes records 0).1
            ++ [if (exportLoop template tname writeRes renderRes records 0).2.isEmpty
                then "\nНе было сгенерировано ни одного файла."
                else "\nГенерация завершена."]) := by
  refine ⟨?_, ?_, ?_, ?_⟩
  · intro template tname writeRes renderRes records
    induction records with
    | nil => intro i; rfl
    | cons r rest ih =>
      intro i
      cases hw : writeRes i with
      | some e => simp [exportLoop, expectedOuts, hw, ih]
      | none =>
        cases hr : renderRes i with
        | some e => simp [exportLoop, expectedOuts, hw, hr, ih]
        | none => simp [exportLoop, expectedOuts, hw, hr, ih]
  · intro template tname writeRes renderRes records
    induction records with
    | nil =>
      intro i k e hk
      exact absurd hk (Nat.not_lt_zero k)
    | cons r rest ih =>
      intro i k e hk hwk
      cases k with
      | zero =>
        rw [Nat.add_zero] at hwk
        simp [exportLoop, hwk]
      | succ k2 =>
        have hre : i + 1 + k2 = i + (k2 + 1) := by omega
        have hmem := ih (i + 1) k2 e (by simpa using hk) (by rw [hre]; exact hwk)
        cases hw : writeRes i with
        | some e2 => simp [exportLoop, hw]; right; exact hmem
        | none =>
          cases hr : renderRes i with
          | some e2 => simp [exportLoop, hw, hr]; right; exact hmem
          | none => simp [exportLoop, hw, hr]; right; exact hmem
  · intro template tname writeRes renderRes records
    induction records with
    | nil =>
      intro i k e hk
      exact absurd hk (Nat.not_lt_zero k)
    | cons r rest ih =>
      intro i k e hk hwk hrk
      cases k with
      | zero =>
        rw [Nat.add_zero] at hwk hrk
        simp [exportLoop, hwk, hrk]
      | succ k2 =>
        have hre : i + 1 + k2 = i + (k2 + 1) := by omega
        have hmem := ih (i + 1) k2 e (by simpa using hk) (by rw [hre]; exact hwk)
          (by rw [hre]; exact hrk)
        have hgetD : (r :: rest).getD (k2 + 1) defaultRec = rest.getD k2 defaultRec := rfl
        rw [hgetD]
        cases hw : writeRes i with
        | some e2 => simp [exportLoop, hw]; right; simpa using hmem
        | none =>
          cases hr : renderRes i with
          | some e2 => simp [exportLoop, hw, hr]; right; simpa using hmem
          | none => simp [exportLoop, hw, hr]; right; simpa using hmem
  · intro template tname writeRes renderRes records
    rfl

/-- C3 counterexample to the claim as stated: with records A, B, C where the
temporary write of A fails and the render of B fails, the batch continues and
C is produced, but the write-failure line does not mention the offending id A,
and no printed line contains the digit 1 even though exactly 1 file was
produced, so no success count is reported. -/
theorem export_best_effort_counterexample :
    (exportRun "x".data "t"
        (fun i => if i = 0 then some "werr" else Option.none)
        (fun i => if i = 1 then some "rerr" else Option.none)
        [⟨PyVal.pstr "A", PyVal.pnone, PyVal.pnone, []⟩,
         ⟨PyVal.pstr "B", PyVal.pnone, PyVal.pnone, []⟩,
         ⟨PyVal.pstr "C", PyVal.pnone, PyVal.pnone, []⟩]).1
      = [writeErrLine "werr", renderErrLine (PyVal.pstr "B") "rerr",
         createdLine "output/(C)_t.pdf", "\nГенерация завершена."]
    ∧ (exportRun "x".data "t"
        (fun i => if i = 0 then some "werr" else Option.none)
        (fun i => if i = 1 then some "rerr" else Option.none)
        [⟨PyVal.pstr "A", PyVal.pnone, PyVal.pnone, []⟩,
         ⟨PyVal.pstr "B", PyVal.pnone, PyVal.pnone, []⟩,
         ⟨PyVal.pstr "C", PyVal.pnone, PyVal.pnone, []⟩]).2
      = ["output/(C)_t.pdf"]
    ∧ (writeErrLine "werr").data.contains 'A' = false
    ∧ ((exportRun "x".data "t"
        (fun i => if i = 0 then some "werr" else Option.none)
        (fun i => if i = 1 then some "rerr" else Option.none)
        [⟨PyVal.pstr "A", PyVal.pnone, PyVal.pnone, []⟩,
         ⟨PyVal.pstr "B", PyVal.pnone, PyVal.pnone, []⟩,
         ⟨PyVal.pstr "C", PyVal.pnone, PyVal.pnone, []⟩]).1.all
          (fun l => !(l.data.contains '1'))) = true := by
  refine ⟨rfl, rfl, rfl, rfl⟩

/-- C3 witness for the amended claim, at the same concrete batch: the
successful record C still produces its file, the write failure of A is
reported, and the render failure of B is reported with id B. -/
theorem export_best_effort_witness :
    (exportLoop "x".data "t"
        (fun i => if i = 0 then some "werr" else Option.none)
        (fun i => if i = 1 then some "rerr" else Option.none)
        [⟨PyVal.pstr "A", PyVal.pnone, PyVal.pnone, []⟩,
         ⟨PyVal.pstr "B", PyVal.pnone, PyVal.pnone, []⟩,
         ⟨PyVal.pstr "C", PyVal.pnone, PyVal.pnone, []⟩] 0).2
      = expectedOuts "t"
          (fun i => if i = 0 then some "werr" else Option.none)
          (fun i => if i = 1 then some "rerr" else Option.none)
          [⟨PyVal.pstr "A", PyVal.pnone, PyVal.pnone, []⟩,
           ⟨PyVal.pstr "B", PyVal.pnone, PyVal.pnone, []⟩,
           ⟨PyVal.pstr "C", PyVal.pnone, PyVal.pnone, []⟩] 0
    ∧ writeErrLine "werr" ∈ (exportLoop "x".data "t"
        (fun i => if i = 0 then some "werr" else Option.none)
        (fun i => if i = 1 then some "rerr" else Option.none)
        [⟨PyVal.pstr "A", PyVal.pnone, PyVal.pnone, []⟩,
         ⟨PyVal.pstr "B", PyVal.pnone, PyVal.pnone, []⟩,
         ⟨PyVal.pstr "C", PyVal.pnone, PyVal.pnone, []⟩] 0).1
    ∧ renderErrLine (PyVal.pstr "B") "rerr" ∈ (exportLoop "x".data "t"
        (fun i => if i = 0 then some "werr" else Option.none)
        (fun i => if i = 1 then some "rerr" else Option.none)
        [⟨PyVal.pstr "A", PyVal.pnone, PyVal.pnone, []⟩,
         ⟨PyVal.pstr "B", PyVal.pnone, PyVal.pnone, []⟩,
         ⟨PyVal.pstr "C", PyVal.pnone, PyVal.pnone, []⟩] 0).1 :=
  ⟨export_best_effort.1 "x".data "t" _ _ _ 0,
   export_best_effort.2.1 "x".data "t" _ _ _ 0 0 "werr" (by decide) rfl,
   export_best_effort.2.2.1 "x".data "t" _ _ _ 0 1 "rerr" (by decide) rfl rfl⟩
